import Mathlib

/-!
Verification development for the C-Wiper core: a shallow embedding of the
security layer, rule engines, state manager, cleaner executor and clean
controller, with theorems about their behaviour.

Modelling conventions:
* Windows paths are represented by their `pathlib` part lists (`List String`),
  as produced by `PureWindowsPath(...).parts`.
* The operating system (existence checks, `os.path.realpath`, `Path.resolve`)
  is an external collaborator and is modelled by an explicit `FileSystem`
  record of oracle functions.
* Python `str.lower()` is modelled by `foldCase` (ASCII case folding).
* Python floats reached by repeated division by 1024 are modelled by `ℚ`;
  division of such values by 1024 is exact in IEEE doubles, so the model is
  faithful on the inputs considered here.
-/

attribute [local semireducible] Rat.add Rat.sub Rat.mul Rat.inv

/-- Path separator characters accepted by `pathlib` on Windows. -/
def pathSep (c : Char) : Bool := c == '\\' || c == '/'

/-- Split a character list into components at separators (structural
recursion so that the kernel can evaluate it). -/
def splitAux (sep : Char → Bool) : List Char → List Char → List String
  | [], acc => [String.mk acc.reverse]
  | c :: cs, acc =>
    if sep c then String.mk acc.reverse :: splitAux sep cs []
    else splitAux sep cs (c :: acc)

/-- Model of `PureWindowsPath(s).parts`: an optional drive anchor followed by
the non-empty components. -/
def winParts (s : String) : List String :=
  match s.data with
  | c :: ':' :: rest =>
    if c.isAlpha then
      let hasRoot := match rest with
        | [] => false
        | ch :: _ => pathSep ch
      let anchor := if hasRoot then String.mk [c, ':', '\\'] else String.mk [c, ':']
      anchor :: (splitAux pathSep rest []).filter (fun x => x ≠ "")
    else (splitAux pathSep s.data []).filter (fun x => x ≠ "")
  | _ => (splitAux pathSep s.data []).filter (fun x => x ≠ "")

/-- Model of Python `str.lower()` (ASCII case folding). -/
def foldCase (s : String) : String := String.mk (s.data.map Char.toLower)

/-- Case folding applied to every part of a path. -/
def foldCaseParts (p : List String) : List String := p.map foldCase

/-- True when a part is a drive/root anchor such as `C:\` or `C:`. -/
def isAnchorPart (s : String) : Bool :=
  match s.data.getLast? with
  | some c => c == ':' || c == '\\' || c == '/'
  | none => false

/-- Model of `pathlib.Path.name`: the final component, or `""` for a bare
anchor. -/
def wname (p : List String) : String :=
  match p.getLast? with
  | none => ""
  | some s => if isAnchorPart s then "" else s

/-- Model of `pathlib.Path.suffix`: the substring of the name from its last
dot, when that dot is neither leading nor trailing. -/
def wsuffix (p : List String) : String :=
  let n := (wname p).data
  let idxs := (n.enum.filter (fun pr => pr.2 == '.')).map Prod.fst
  match idxs.getLast? with
  | none => ""
  | some i => if 0 < i ∧ i < n.length - 1 then String.mk (n.drop i) else ""

/-- Model of `str(path)` for a part list. -/
def strOfParts (p : List String) : String :=
  match p with
  | [] => "."
  | a :: rest =>
    if isAnchorPart a then a ++ String.intercalate "\\" rest
    else String.intercalate "\\" (a :: rest)

/-- Contiguous-sublist search used to model Python's `in` substring test. -/
def subSearch (needle : List Char) : List Char → Bool
  | [] => needle.isEmpty
  | c :: cs => needle.isPrefixOf (c :: cs) || subSearch needle cs

/-- Model of the Python `in` substring test. -/
def strHasSub (hay needle : String) : Bool := subSearch needle.data hay.data

/-- Oracle for the pieces of OS behaviour the security layer delegates to:
`Path.exists`, `os.path.realpath` and `Path.resolve`. -/
structure FileSystem where
  pexists : List String → Bool
  realpath : List String → List String
  resolve : List String → List String

namespace SecurityLayer

/-- Model of `SecurityLayer.HARDCODED_PROTECTED` from `src/core/security.py`. -/
def HARDCODED_PROTECTED : List String :=
  ["C:\\Windows",
   "C:\\Program Files",
   "C:\\Program Files (x86)",
   "C:\\ProgramData",
   "C:\\System Volume Information",
   "C:\\Recovery",
   "C:\\Boot",
   "C:\\EFI",
   "C:$Recycle.Bin"]

/-- Model of `SecurityLayer.SYSTEM_FILES` from `src/core/security.py`. -/
def SYSTEM_FILES : List String :=
  ["pagefile.sys", "hiberfil.sys", "swapfile.sys", "ntldr",
   "ntdetect.com", "boot.ini", "bootsect.bak"]

/-- Model of `SecurityLayer.CRITICAL_EXTENSIONS` from `src/core/security.py`; the
membership test on this list only produces a log line, never a rejection. -/
def CRITICAL_EXTENSIONS : List String :=
  [".sys", ".dll", ".exe", ".com", ".bat", ".cmd", ".ps1", ".reg", ".inf"]

/-- Model of `SecurityLayer._is_path_under`: resolve both paths and compare the
parent's parts as a prefix of the path's parts. -/
def isPathUnder (fs : FileSystem) (path parent : List String) : Bool :=
  let path_resolved := fs.resolve path
  let parent_resolved := fs.resolve parent
  parent_resolved.isPrefixOf path_resolved

/-- Model of `SecurityLayer.is_safe_to_delete`: existence check, then the
protected-path check on the `realpath`-resolved path, then the system-file
name check and whitelist extension check on the original path's name and
suffix (the source reads `path.name` and `path.suffix`, not `real_path`).
The critical-extension step is log-only and does not affect the result. -/
def is_safe_to_delete (fs : FileSystem) (path : List String)
    (whitelist_extensions : List String := []) : Bool × String :=
  if fs.pexists path = false then
    (false, "File does not exist: " ++ strOfParts path)
  else
    let real_path := fs.realpath path
    match HARDCODED_PROTECTED.find? (fun prot => isPathUnder fs real_path (winParts prot)) with
    | some prot => (false, "Protected path: " ++ prot)
    | none =>
      let filename := foldCase (wname path)
      if SYSTEM_FILES.contains filename then
        (false, "System file: " ++ filename)
      else if (whitelist_extensions.map foldCase).contains (foldCase (wsuffix path)) then
        (false, "Whitelisted extension: " ++ wsuffix path)
      else
        (true, "OK")

/-- Model of `SecurityLayer.is_system_path`: the protected-path check alone. -/
def is_system_path (fs : FileSystem) (path : List String) : Bool :=
  HARDCODED_PROTECTED.any (fun prot => isPathUnder fs (fs.realpath path) (winParts prot))

end SecurityLayer

/-- Round `q * 100` to an integer, ties to even, modelling `f"{x:.2f}"`
rounding for the nonnegative sizes that occur here. -/
def rnd2 (q : ℚ) : ℤ :=
  let r := q * 100
  let fl : ℤ := ⌊r⌋
  let frac := r - (fl : ℚ)
  if frac < 1/2 then fl
  else if 1/2 < frac then fl + 1
  else if fl % 2 = 0 then fl else fl + 1

/-- Two-digit zero-padded rendering of a value below 100. -/
def pad2 (n : ℕ) : String := if n < 10 then "0" ++ Nat.repr n else Nat.repr n

/-- Model of `f"{x:.2f}"` for nonnegative `x`. -/
def formatF2 (q : ℚ) : String :=
  let n := rnd2 q
  Int.repr (n / 100) ++ "." ++ pad2 (n % 100).toNat

/-- The unit list walked by every `format_size` loop in the source. -/
def sizeUnits : List String := ["B", "KB", "MB", "GB", "TB"]

/-- The shared size-formatting loop: repeatedly divide by 1024 until the
value drops below 1024, returning the rendered string and the final value
of the loop variable. -/
def fmtLoop : List String → ℚ → String × ℚ
  | [], s => (formatF2 s ++ " PB", s)
  | u :: us, s => if s < 1024 then (formatF2 s ++ " " ++ u, s) else fmtLoop us (s / 1024)

/-- Model of `FileInfo` from `src/models/scan_result.py`. Numeric fields are `ℚ`
because `format_size` turns `size` into a float by in-place division. -/
structure FileInfo where
  path : List String
  size : ℚ
  is_dir : Bool
  modified_time : ℚ := 0
  created_time : Option ℚ := none
  file_extension : String := ""
  is_hidden : Bool := false
  is_readonly : Bool := false
deriving DecidableEq

/-- Model of `FileInfo.__post_init__` extension extraction: when no extension is
passed, take `path.suffix`. -/
def FileInfo.ofPath (path : List String) (size : ℚ) (is_dir : Bool)
    (modified_time : ℚ) : FileInfo :=
  { path := path, size := size, is_dir := is_dir, modified_time := modified_time,
    file_extension := wsuffix path }

/-- Model of `FileInfo.format_size`: renders the size and, because the loop divides
`self.size` in place, also returns the mutated record. -/
def FileInfo.format_size (fi : FileInfo) : String × FileInfo :=
  let r := fmtLoop sizeUnits fi.size
  (r.1, { fi with size := r.2 })

/-- Model of `CleanResult` from `src/core/cleaner.py`. -/
structure CleanResult where
  success : Bool := true
  files_deleted : ℕ := 0
  total_size : ℚ := 0
  errors : List String := []
  duration : ℚ := 0
  skipped : ℕ := 0
deriving DecidableEq

/-- Model of `CleanResult.formatted_size`: the property's loop divides
`self.total_size` in place, so reading it returns the rendered string and
the mutated record. -/
def CleanResult.formatted_size (cr : CleanResult) : String × CleanResult :=
  let r := fmtLoop sizeUnits cr.total_size
  (r.1, { cr with total_size := r.2 })

/-- Model of `RiskLevel` from `src/core/rule_engine.py`. -/
inductive RiskLevel
  | L1_SAFE
  | L2_REVIEW
  | L3_SYSTEM
deriving DecidableEq

/-- Oracle for the Python `re` library calls the rule conditions delegate
to: `name_pattern` regex search and the wildcard-to-regex full path match. -/
structure Matcher where
  regexSearch : String → String → Bool
  wildcardMatch : String → String → Bool

/-- Model of `RuleConditions` from `src/core/rule_engine.py`. -/
structure RuleConditions where
  path_pattern : Option String := none
  file_extensions : List String := []
  min_size : Option ℚ := none
  max_size : Option ℚ := none
  name_pattern : Option String := none
deriving DecidableEq

/-- Python truthiness of an optional string (`None` and `""` are falsy). -/
def optTruthy : Option String → Bool
  | none => false
  | some s => !(s == "")

/-- Model of `RuleConditions.matches`: every present sub-condition must hold. The
pattern sub-conditions go through the `Matcher` oracle. -/
def RuleConditions.matches (m : Matcher) (c : RuleConditions) (f : FileInfo) : Bool :=
  if optTruthy c.path_pattern
      && !(m.wildcardMatch (c.path_pattern.getD "") (strOfParts f.path)) then false
  else if !c.file_extensions.isEmpty
      && !((c.file_extensions.map foldCase).contains (foldCase f.file_extension)) then false
  else if c.min_size.isSome && decide (f.size < c.min_size.getD 0) then false
  else if c.max_size.isSome && decide (c.max_size.getD 0 < f.size) then false
  else if optTruthy c.name_pattern
      && !(m.regexSearch (c.name_pattern.getD "") (wname f.path)) then false
  else true

/-- Model of `Rule` from `src/core/rule_engine.py`. -/
structure Rule where
  id : String
  name : String
  conditions : RuleConditions
  risk_level : RiskLevel := RiskLevel.L2_REVIEW
  enabled : Bool := true
  category : Option String := none
deriving DecidableEq

/-- Model of `Rule.matches`: disabled rules never match. -/
def Rule.matches (m : Matcher) (r : Rule) (f : FileInfo) : Bool :=
  r.enabled && r.conditions.matches m f

/-- Model of `RuleMatch` from `src/core/rule_engine.py`. -/
structure RuleMatch where
  rule : Option Rule
  file_info : FileInfo
  matched : Bool
  reason : String := ""
deriving DecidableEq

namespace RuleEngine

/-- Model of `RuleIndex.enabled_rules`: the enabled rules in configured order. -/
def enabledRules (rules : List Rule) : List Rule := rules.filter (fun r => r.enabled)

/-- The `for rule in enabled_rules` loop body of `RuleEngine.match_file`. -/
def matchLoop (m : Matcher) (f : FileInfo) : List Rule → RuleMatch
  | [] => { rule := none, file_info := f, matched := false, reason := "No matching rule found" }
  | r :: rs =>
    if r.matches m f then
      { rule := some r, file_info := f, matched := true, reason := "Matched rule: " ++ r.name }
    else matchLoop m f rs

/-- Model of `RuleEngine.match_file` for a loaded rule list. -/
def match_file (m : Matcher) (rules : List Rule) (f : FileInfo) : RuleMatch :=
  matchLoop m f (enabledRules rules)

end RuleEngine

namespace OptimizedRuleEngine

/-- Model of `ExtensionIndex` lookup: the rules whose (nonempty) extension list
contains the file's extension, case-insensitively, in configured order.
Rules without extension conditions land in `rules_without_extension`,
which `match_file` never consults. -/
def extCandidates (rules : List Rule) (f : FileInfo) : List Rule :=
  rules.filter (fun r =>
    !r.conditions.file_extensions.isEmpty
      && (r.conditions.file_extensions.map foldCase).contains (foldCase f.file_extension))

/-- The candidate loop of `OptimizedRuleEngine.match_file`, skipping
disabled rules. -/
def optMatchLoop (m : Matcher) (f : FileInfo) : List Rule → RuleMatch
  | [] => { rule := none, file_info := f, matched := false, reason := "No matching rule found" }
  | r :: rs =>
    if !r.enabled then optMatchLoop m f rs
    else if r.matches m f then
      { rule := some r, file_info := f, matched := true, reason := "Matched rule: " ++ r.name }
    else optMatchLoop m f rs

/-- Model of `OptimizedRuleEngine.match_file` on a first, uncached call (the match
cache is keyed by path and empty, so the lookup misses): narrow candidates
through the extension index, falling back to all enabled rules when the
index returns nothing. -/
def match_file (m : Matcher) (rules : List Rule) (f : FileInfo) : RuleMatch :=
  let candidate_rules := extCandidates rules f
  let candidate_rules :=
    if candidate_rules.isEmpty then RuleEngine.enabledRules rules else candidate_rules
  optMatchLoop m f candidate_rules

end OptimizedRuleEngine

/-- Model of `SystemState` from `src/controllers/state_manager.py`. -/
inductive SystemState
  | idle
  | scanning
  | cleaning
  | analyzing
deriving DecidableEq

/-- Model of `StateManager.VALID_TRANSITIONS`. -/
def VALID_TRANSITIONS : SystemState → List SystemState
  | SystemState.idle => [SystemState.scanning, SystemState.analyzing, SystemState.cleaning]
  | SystemState.scanning => [SystemState.idle, SystemState.cleaning]
  | SystemState.analyzing => [SystemState.idle]
  | SystemState.cleaning => [SystemState.idle]

/-- Model of `StateTransitionError`: carries the source and target states. -/
structure StateTransitionError where
  from_state : SystemState
  to_state : SystemState
deriving DecidableEq

/-- The mutable state of the `StateManager` singleton. -/
structure StateManager where
  state : SystemState := SystemState.idle
  cancel_flag : Bool := false
deriving DecidableEq

/-- Model of `StateManager.transition_to`: raising `StateTransitionError` leaves the
manager untouched, which the model renders by returning the old state next
to the error; success installs the new state and resets the cancel flag. -/
def StateManager.transition_to (sm : StateManager) (new_state : SystemState) :
    StateManager × Option StateTransitionError :=
  let valid_next_states := VALID_TRANSITIONS sm.state
  if valid_next_states.contains new_state then
    ({ state := new_state, cancel_flag := false }, none)
  else
    (sm, some { from_state := sm.state, to_state := new_state })

/-- Model of `StateManager.request_cancel`. -/
def StateManager.request_cancel (sm : StateManager) : StateManager :=
  { sm with cancel_flag := true }

/-- Model of `StateManager.is_idle`. -/
def StateManager.is_idle (sm : StateManager) : Bool := sm.state == SystemState.idle

namespace CleanerExecutor

/-- The per-file loop of `CleanerExecutor.clean`. `cancel` models
`self._cancelled or self.state_manager.is_cancel_requested`, constant
during a single-threaded run; `deleteOk` models whether `_delete_file`
(send2trash) succeeds for a path. Event publication and the progress
callback do not affect the result. -/
def cleanLoop (fs : FileSystem) (deleteOk : List String → Bool) (cancel : Bool)
    (files : List FileInfo) (result : CleanResult) : CleanResult :=
  match files with
  | [] => result
  | file_info :: rest =>
    if cancel then
      { result with success := false, errors := result.errors ++ ["Cancelled by user"] }
    else
      let check := SecurityLayer.is_safe_to_delete fs file_info.path
      if check.1 = false then
        cleanLoop fs deleteOk cancel rest { result with skipped := result.skipped + 1 }
      else if deleteOk file_info.path then
        cleanLoop fs deleteOk cancel rest
          { result with files_deleted := result.files_deleted + 1,
                        total_size := result.total_size + file_info.size }
      else
        cleanLoop fs deleteOk cancel rest
          { result with errors := result.errors ++ ["Failed to delete: " ++ strOfParts file_info.path] }

/-- Model of `CleanerExecutor.clean` (duration is timing noise and stays 0 in the
model). -/
def clean (fs : FileSystem) (deleteOk : List String → Bool) (cancel : Bool)
    (files : List FileInfo) : CleanResult :=
  if files.isEmpty then {} else cleanLoop fs deleteOk cancel files {}

end CleanerExecutor

/-- Model of `CleanController.RECYCLE_BIN_THRESHOLD` (1 GB). -/
def RECYCLE_BIN_THRESHOLD : ℚ := 1024 * 1024 * 1024

/-- The preview dictionary returned by `CleanController.preview_clean`
(the informational `recycle_bin_usage` percent string is omitted). -/
structure PreviewInfo where
  file_count : ℕ
  total_size : ℚ
  formatted_size : String
  safe_files : ℕ
  risky_files : ℕ
  system_files : ℕ
  recycle_bin_warning : Bool
deriving DecidableEq

/-- The mutable state of a `CleanController` together with its
`StateManager`. -/
structure CleanControllerState where
  sm : StateManager
  confirmed : Bool := false
  preview_files : List FileInfo := []
  result : Option CleanResult := none
deriving DecidableEq

namespace CleanController

/-- The classification loop of `preview_clean`, returning
(safe, risky, system) counts. -/
def previewCounts (fs : FileSystem) : List FileInfo → ℕ × ℕ × ℕ
  | [] => (0, 0, 0)
  | file_info :: rest =>
    let acc := previewCounts fs rest
    let check := SecurityLayer.is_safe_to_delete fs file_info.path
    if check.1 = false then
      if strHasSub (foldCase check.2) "system" || strHasSub (foldCase check.2) "protected" then
        (acc.1, acc.2.1, acc.2.2 + 1)
      else acc
    else if [".tmp", ".cache", ".temp"].contains file_info.file_extension then
      (acc.1 + 1, acc.2.1, acc.2.2)
    else (acc.1, acc.2.1 + 1, acc.2.2)

/-- Model of `CleanController._format_size` (works on a local variable, no
mutation). -/
def format_size (q : ℚ) : String := (fmtLoop sizeUnits q).1

/-- Model of `CleanController.preview_clean`: stores a copy of the file list,
clears the confirmed flag, and computes no-side-effect statistics. -/
def preview_clean (fs : FileSystem) (c : CleanControllerState) (files : List FileInfo) :
    PreviewInfo × CleanControllerState :=
  let c' := { c with preview_files := files, confirmed := false }
  let total_size := (files.map FileInfo.size).sum
  let counts := previewCounts fs files
  ({ file_count := files.length, total_size := total_size,
     formatted_size := format_size total_size,
     safe_files := counts.1, risky_files := counts.2.1, system_files := counts.2.2,
     recycle_bin_warning := decide (RECYCLE_BIN_THRESHOLD < total_size) }, c')

/-- Model of `CleanController.confirm_clean`. -/
def confirm_clean (c : CleanControllerState) : Bool × CleanControllerState :=
  (true, { c with confirmed := true })

/-- Model of `CleanController.start_clean`. The result is (return value, controller
state afterwards, whether a background worker was spawned); the worker
itself runs later and performs any deletions, so a `false` third component
means zero deletions. From `idle` the `transition_to` call cannot raise,
so the `except` branch is unreachable. -/
def start_clean (c : CleanControllerState) (files : List FileInfo)
    (require_confirmation : Bool := true) : Bool × CleanControllerState × Bool :=
  if !c.sm.is_idle then (false, c, false)
  else if files.isEmpty then (false, c, false)
  else if require_confirmation && !c.confirmed then (false, c, false)
  else
    (true, { c with result := none, sm := (c.sm.transition_to SystemState.cleaning).1 }, true)

/-- Model of `CleanController.reset_confirmation`. -/
def reset_confirmation (c : CleanControllerState) : CleanControllerState :=
  { c with confirmed := false, preview_files := [] }

end CleanController

/-! ### Shared sample objects used by witnesses and counterexamples -/

/-- A matcher oracle whose pattern functions reject everything; the sample
rules below carry no pattern conditions, so it is never consulted. -/
def trivMatcher : Matcher :=
  { regexSearch := fun _ _ => false, wildcardMatch := fun _ _ => false }

/-- A `.tmp` file on a non-protected drive. -/
def tmpFile : FileInfo := FileInfo.ofPath (winParts "D:\\t\\x.tmp") 10 false 0

/-- A `.txt` file on a non-protected drive. -/
def txtFile : FileInfo := FileInfo.ofPath (winParts "D:\\t\\y.txt") 5 false 0

/-- An enabled rule with no condition components: it matches every file. -/
def ruleNoExt : Rule := { id := "any", name := "any", conditions := {} }

/-- An enabled rule matching the `.tmp` extension. -/
def ruleTmp : Rule :=
  { id := "temp_files", name := "temp files",
    conditions := { file_extensions := [".tmp"] } }

/-- A filesystem oracle on which every path exists and resolution is the
identity. -/
def idFS : FileSystem :=
  { pexists := fun _ => true, realpath := fun q => q, resolve := fun q => q }

/-- A Windows-like filesystem oracle whose canonical spelling of every
existing path is its case-folded form, so resolution factors through case
folding. -/
def foldFS : FileSystem :=
  { pexists := fun _ => true, realpath := foldCaseParts, resolve := foldCaseParts }

/-! ### Helper lemmas -/

/-- Running `find?` over a filtered list equals `find?` over the original list when
the search predicate implies the filter predicate on the list's members. -/
theorem find?_filter_of_imp {α : Type} (q pred : α → Bool) :
    ∀ l : List α, (∀ a ∈ l, pred a = true → q a = true) →
      (l.filter q).find? pred = l.find? pred := by
  intro l
  induction l with
  | nil => intro _; rfl
  | cons a l ih =>
    intro h
    by_cases hq : q a = true
    · rw [List.filter_cons_of_pos hq]
      by_cases hp : pred a = true
      · rw [List.find?_cons_of_pos _ hp, List.find?_cons_of_pos _ hp]
      · rw [List.find?_cons_of_neg _ hp, List.find?_cons_of_neg _ hp]
        exact ih fun b hb => h b (List.mem_cons_of_mem a hb)
    · have hp : ¬ pred a = true := fun hpa => hq (h a (List.mem_cons_self a l) hpa)
      rw [List.filter_cons_of_neg hq, List.find?_cons_of_neg _ hp]
      exact ih fun b hb => h b (List.mem_cons_of_mem a hb)

/-- The result of `find?` only depends on the predicate's values on the list's members. -/
theorem find?_congrOn {α : Type} (pa pb : α → Bool) :
    ∀ l : List α, (∀ a ∈ l, pa a = pb a) → l.find? pa = l.find? pb := by
  intro l
  induction l with
  | nil => intro _; rfl
  | cons a l ih =>
    intro h
    have ha := h a (List.mem_cons_self a l)
    by_cases hp : pa a = true
    · rw [List.find?_cons_of_pos _ hp, List.find?_cons_of_pos _ (ha ▸ hp)]
    · rw [List.find?_cons_of_neg _ hp, List.find?_cons_of_neg _ (fun hb => hp (ha ▸ hb))]
      exact ih fun b hb => h b (List.mem_cons_of_mem a hb)

/-- The size-formatting loop never increases the loop variable on positive
input. -/
theorem fmtLoop_snd_le (units : List String) : ∀ s : ℚ, 0 < s → (fmtLoop units s).2 ≤ s := by
  induction units with
  | nil => intro s _; exact le_refl s
  | cons u us ih =>
    intro s hs
    rw [fmtLoop]
    by_cases h : s < 1024
    · rw [if_pos h]
    · rw [if_neg h]
      have h1 : (fmtLoop us (s / 1024)).2 ≤ s / 1024 := ih _ (by positivity)
      have h2 : s / 1024 ≤ s := div_le_self hs.le (by norm_num)
      exact le_trans h1 h2

/-- Starting at 1024 or more, the size-formatting loop strictly shrinks the
loop variable. -/
theorem fmtLoop_snd_lt (s : ℚ) (hs : (1024:ℚ) ≤ s) : (fmtLoop sizeUnits s).2 < s := by
  have hpos : (0:ℚ) < s := lt_of_lt_of_le (by norm_num) hs
  rw [sizeUnits, fmtLoop, if_neg (not_lt.mpr hs)]
  have h1 : (fmtLoop ["KB", "MB", "GB", "TB"] (s / 1024)).2 ≤ s / 1024 :=
    fmtLoop_snd_le _ _ (by positivity)
  have h2 : s / 1024 < s := div_lt_self hpos (by norm_num)
  exact lt_of_le_of_lt h1 h2

/-! ### Claim theorems -/

/-- Claim C6: `transition_to s'` raises a `StateTransitionError` carrying the
from-state and to-state, leaving state and cancel flag untouched, exactly
when `s'` is not in the allowed set of the current state (Idle to
Scanning/Analyzing/Cleaning, Scanning to Idle/Cleaning, Analyzing to Idle,
Cleaning to Idle); on success the state becomes `s'` and the cancel flag is
reset to false. -/
theorem stateManager_transition_characterization (sm : StateManager) (s' : SystemState) :
    (((sm.transition_to s').2 = some { from_state := sm.state, to_state := s' } ∧
        (sm.transition_to s').1 = sm) ↔
      ¬ ((sm.state = SystemState.idle ∧
            (s' = SystemState.scanning ∨ s' = SystemState.analyzing ∨ s' = SystemState.cleaning)) ∨
          (sm.state = SystemState.scanning ∧ (s' = SystemState.idle ∨ s' = SystemState.cleaning)) ∨
          (sm.state = SystemState.analyzing ∧ s' = SystemState.idle) ∨
          (sm.state = SystemState.cleaning ∧ s' = SystemState.idle))) ∧
    ((sm.transition_to s').2 = none →
      (sm.transition_to s').1 = { state := s', cancel_flag := false }) := by
  obtain ⟨st, cf⟩ := sm
  cases cf <;> cases st <;> cases s' <;> decide

/-- Witness for C6: from Scanning, a transition to Analyzing fails with the
error carrying (scanning, analyzing) and leaves the manager untouched; from
Idle, a transition to Scanning succeeds and resets the cancel flag. -/
theorem stateManager_transition_characterization_witness :
    ((StateManager.transition_to { state := SystemState.scanning, cancel_flag := true }
        SystemState.analyzing).2
      = some { from_state := SystemState.scanning, to_state := SystemState.analyzing } ∧
      (StateManager.transition_to { state := SystemState.scanning, cancel_flag := true }
        SystemState.analyzing).1
      = { state := SystemState.scanning, cancel_flag := true }) ∧
    (StateManager.transition_to { state := SystemState.idle, cancel_flag := true }
        SystemState.scanning).1
      = { state := SystemState.scanning, cancel_flag := false } :=
  ⟨(stateManager_transition_characterization
      { state := SystemState.scanning, cancel_flag := true } SystemState.analyzing).1.mpr
        (by decide),
   (stateManager_transition_characterization
      { state := SystemState.idle, cancel_flag := true } SystemState.scanning).2 (by decide)⟩

/-- Claim C2: with the default `require_confirmation = true` and the
confirmed flag unset, `start_clean` returns false, leaves the whole
controller state (including the `StateManager`) unchanged, and spawns no
worker, hence performs zero deletions, for every file list. -/
theorem startClean_requires_confirmation (c : CleanControllerState) (files : List FileInfo)
    (h : c.confirmed = false) :
    CleanController.start_clean c files true = (false, c, false) := by
  unfold CleanController.start_clean
  by_cases h1 : c.sm.is_idle
  · by_cases h2 : files.isEmpty <;> simp [h1, h2, h]
  · simp [h1]

/-- Witness for C2: an unconfirmed idle controller with one file. -/
theorem startClean_requires_confirmation_witness :
    ({ sm := { state := SystemState.idle, cancel_flag := false }, confirmed := false,
        preview_files := [], result := none } : CleanControllerState).confirmed = false ∧
    CleanController.start_clean
      { sm := { state := SystemState.idle, cancel_flag := false }, confirmed := false,
        preview_files := [], result := none } [tmpFile] true
      = (false,
        { sm := { state := SystemState.idle, cancel_flag := false }, confirmed := false,
          preview_files := [], result := none }, false) :=
  ⟨rfl, startClean_requires_confirmation _ [tmpFile] rfl⟩

/-- Claim C8: in every state other than Idle, including Scanning,
`start_clean` returns false with no worker spawned and no transition
attempted (the controller state, including the `StateManager`, is
unchanged), even though the state machine itself allows the
Scanning-to-Cleaning transition. -/
theorem startClean_blocked_outside_idle (c : CleanControllerState) (files : List FileInfo)
    (rc : Bool) (h : c.sm.state ≠ SystemState.idle) :
    CleanController.start_clean c files rc = (false, c, false) ∧
    (VALID_TRANSITIONS SystemState.scanning).contains SystemState.cleaning = true := by
  have hni : c.sm.is_idle = false := by
    unfold StateManager.is_idle
    exact beq_eq_false_iff_ne.mpr h
  exact ⟨by simp [CleanController.start_clean, hni], by decide⟩

/-- Witness for C8: a confirmed controller whose manager is Scanning. -/
theorem startClean_blocked_outside_idle_witness :
    ({ sm := { state := SystemState.scanning, cancel_flag := false }, confirmed := true,
        preview_files := [], result := none } : CleanControllerState).sm.state ≠ SystemState.idle ∧
    CleanController.start_clean
      { sm := { state := SystemState.scanning, cancel_flag := false }, confirmed := true,
        preview_files := [], result := none } [tmpFile] true
      = (false,
        { sm := { state := SystemState.scanning, cancel_flag := false }, confirmed := true,
          preview_files := [], result := none }, false) :=
  ⟨by decide,
   (startClean_blocked_outside_idle
     { sm := { state := SystemState.scanning, cancel_flag := false }, confirmed := true,
       preview_files := [], result := none } [tmpFile] true (by decide)).1⟩

/-- Claim C9: every `preview_clean` call clears the confirmed flag, so in
any call sequence where `confirm_clean` is followed by `preview_clean`, a
subsequent `start_clean` with default arguments returns false, changes
nothing, and spawns no worker (hence performs no deletions). -/
theorem previewClean_resets_confirmation (fs : FileSystem) (c : CleanControllerState)
    (files files' : List FileInfo) :
    (CleanController.preview_clean fs c files).2.confirmed = false ∧
    CleanController.start_clean
        (CleanController.preview_clean fs (CleanController.confirm_clean c).2 files).2 files' true
      = (false,
        (CleanController.preview_clean fs (CleanController.confirm_clean c).2 files).2, false) := by
  constructor
  · rfl
  · apply startClean_requires_confirmation
    rfl

/-- Claim C10: for any `CleanResult` holding at least 1024 bytes, reading
`formatted_size` divides `total_size` in place, so the field afterwards is
strictly below the freed byte count (hence no longer equal to it); two
consecutive reads can return different strings, shown at 2048 bytes; and
`FileInfo.format_size` mutates its `size` field the same way. -/
theorem formatSize_mutates_state :
    (∀ cr : CleanResult, (1024:ℚ) ≤ cr.total_size →
      (CleanResult.formatted_size cr).2.total_size < cr.total_size) ∧
    (CleanResult.formatted_size
        (CleanResult.formatted_size ({ total_size := 2048 } : CleanResult)).2).1
      ≠ (CleanResult.formatted_size ({ total_size := 2048 } : CleanResult)).1 ∧
    (∀ fi : FileInfo, (1024:ℚ) ≤ fi.size →
      (FileInfo.format_size fi).2.size < fi.size) := by
  refine ⟨fun cr h => ?_, by decide, fun fi h => ?_⟩
  · simpa [CleanResult.formatted_size] using fmtLoop_snd_lt cr.total_size h
  · simpa [FileInfo.format_size] using fmtLoop_snd_lt fi.size h

/-- Witness for C10: a result holding 2048 bytes and a file of 4096 bytes. -/
theorem formatSize_mutates_state_witness :
    ((1024:ℚ) ≤ ({ total_size := 2048 } : CleanResult).total_size ∧
      (CleanResult.formatted_size ({ total_size := 2048 } : CleanResult)).2.total_size
        < ({ total_size := 2048 } : CleanResult).total_size) ∧
    ((1024:ℚ) ≤ (FileInfo.ofPath (winParts "D:\\t\\big.bin") 4096 false 0).size ∧
      (FileInfo.format_size (FileInfo.ofPath (winParts "D:\\t\\big.bin") 4096 false 0)).2.size
        < (FileInfo.ofPath (winParts "D:\\t\\big.bin") 4096 false 0).size) :=
  ⟨⟨by decide, formatSize_mutates_state.1 _ (by decide)⟩,
   ⟨by decide, formatSize_mutates_state.2.2 _ (by decide)⟩⟩

/-- Rules that fail `Rule.matches` leave the match loop unchanged when
prepended. -/
theorem matchLoop_append_of_none (m : Matcher) (f : FileInfo) :
    ∀ xs ys : List Rule, (∀ r ∈ xs, r.matches m f = false) →
      RuleEngine.matchLoop m f (xs ++ ys) = RuleEngine.matchLoop m f ys := by
  intro xs
  induction xs with
  | nil => intro ys _; rfl
  | cons r rs ih =>
    intro ys h
    have hr : r.matches m f = false := h r (List.mem_cons_self r rs)
    rw [List.cons_append, RuleEngine.matchLoop, if_neg (by simp [hr])]
    exact ih ys fun b hb => h b (List.mem_cons_of_mem r hb)

/-- When no rule in the list matches, the match loop reports the explicit
unmatched result. -/
theorem matchLoop_of_all_none (m : Matcher) (f : FileInfo) :
    ∀ l : List Rule, (∀ r ∈ l, r.matches m f = false) →
      RuleEngine.matchLoop m f l
        = { rule := none, file_info := f, matched := false, reason := "No matching rule found" } := by
  intro l
  induction l with
  | nil => intro _; rfl
  | cons r rs ih =>
    intro h
    have hr : r.matches m f = false := h r (List.mem_cons_self r rs)
    rw [RuleEngine.matchLoop, if_neg (by simp [hr])]
    exact ih fun b hb => h b (List.mem_cons_of_mem r hb)

/-- Claim C5: `RuleEngine.match_file` returns the first enabled rule in
configured order whose condition the file satisfies — if enabled rule `A`
matches and no enabled rule before it matches, the result carries `A` with
`matched = true`; and when no enabled rule matches, the result is the
explicit unmatched record (`matched = false`, `rule = none`) rather than a
default tier. -/
theorem ruleEngine_first_match_wins (m : Matcher) (rules : List Rule) (f : FileInfo) :
    (∀ (l1 l2 : List Rule) (A : Rule), rules = l1 ++ A :: l2 → A.enabled = true →
      A.conditions.matches m f = true →
      (∀ B ∈ l1, B.enabled = true → B.conditions.matches m f = false) →
      (RuleEngine.match_file m rules f).matched = true ∧
        (RuleEngine.match_file m rules f).rule = some A) ∧
    ((∀ r ∈ rules, r.enabled = true → r.conditions.matches m f = false) →
      (RuleEngine.match_file m rules f).matched = false ∧
        (RuleEngine.match_file m rules f).rule = none) := by
  constructor
  · intro l1 l2 A hsplit hA hAm hbefore
    have hAmatch : A.matches m f = true := by simp [Rule.matches, hA, hAm]
    have : RuleEngine.match_file m rules f
        = { rule := some A, file_info := f, matched := true,
            reason := "Matched rule: " ++ A.name } := by
      unfold RuleEngine.match_file RuleEngine.enabledRules
      rw [hsplit, List.filter_append, List.filter_cons, if_pos (by simp [hA])]
      rw [matchLoop_append_of_none m f _ _ ?_]
      · rw [RuleEngine.matchLoop, if_pos hAmatch]
      · intro b hb
        have hbmem := List.mem_filter.mp hb
        simp [Rule.matches, hbefore b hbmem.1 hbmem.2, Bool.and_eq_false_iff]
    rw [this]
    exact ⟨rfl, rfl⟩
  · intro hnone
    have : RuleEngine.match_file m rules f
        = { rule := none, file_info := f, matched := false,
            reason := "No matching rule found" } := by
      unfold RuleEngine.match_file RuleEngine.enabledRules
      apply matchLoop_of_all_none
      intro r hr
      have hrmem := List.mem_filter.mp hr
      simp [Rule.matches, hnone r hrmem.1 hrmem.2]
    rw [this]
    exact ⟨rfl, rfl⟩

/-- Witness for C5: with rules `[ruleTmp, ruleNoExt]`, a `.tmp` file that
matches both is classified by the earlier `ruleTmp`, and with the single
disabled-free list `[ruleTmp]` a `.txt` file yields the unmatched record. -/
theorem ruleEngine_first_match_wins_witness :
    (ruleTmp.enabled = true ∧
      (RuleEngine.match_file trivMatcher [ruleTmp, ruleNoExt] tmpFile).rule = some ruleTmp) ∧
    ((RuleEngine.match_file trivMatcher [ruleTmp] txtFile).matched = false ∧
      (RuleEngine.match_file trivMatcher [ruleTmp] txtFile).rule = none) :=
  ⟨⟨rfl,
    ((ruleEngine_first_match_wins trivMatcher [ruleTmp, ruleNoExt] tmpFile).1
      [] [ruleNoExt] ruleTmp rfl (by decide) (by decide) (by decide)).2⟩,
   (ruleEngine_first_match_wins trivMatcher [ruleTmp] txtFile).2 (by decide)⟩

/-- The optimized candidate loop equals the baseline loop run on the
enabled sublist. -/
theorem optMatchLoop_eq_matchLoop (m : Matcher) (f : FileInfo) :
    ∀ l : List Rule,
      OptimizedRuleEngine.optMatchLoop m f l
        = RuleEngine.matchLoop m f (l.filter (fun r => r.enabled)) := by
  intro l
  induction l with
  | nil => rfl
  | cons r rs ih =>
    by_cases he : r.enabled = true
    · rw [List.filter_cons_of_pos he, OptimizedRuleEngine.optMatchLoop,
        if_neg (by simp [he]), RuleEngine.matchLoop]
      by_cases hm : r.matches m f = true
      · rw [if_pos hm, if_pos hm]
      · rw [if_neg hm, if_neg hm, ih]
    · have he' : r.enabled = false := by simpa using he
      rw [List.filter_cons_of_neg (by simp [he']), OptimizedRuleEngine.optMatchLoop,
        if_pos (by simp [he']), ih]

/-- The baseline match loop is determined by the first rule `find?`
locates. -/
theorem matchLoop_as_found (m : Matcher) (f : FileInfo) :
    ∀ l : List Rule,
      RuleEngine.matchLoop m f l
        = match l.find? (fun r => r.matches m f) with
          | some r =>
            { rule := some r, file_info := f, matched := true,
              reason := "Matched rule: " ++ r.name }
          | none =>
            { rule := none, file_info := f, matched := false,
              reason := "No matching rule found" } := by
  intro l
  induction l with
  | nil => rfl
  | cons r rs ih =>
    by_cases hm : r.matches m f = true
    · rw [RuleEngine.matchLoop, if_pos hm,
        List.find?_cons_of_pos (p := fun x => x.matches m f) rs hm]
    · rw [RuleEngine.matchLoop, if_neg hm,
        List.find?_cons_of_neg (p := fun x => x.matches m f) rs hm, ih]

/-- A rule whose condition a file satisfies is picked up by the extension
index whenever it carries a nonempty extension list. -/
theorem matches_mem_extCandidates (m : Matcher) (f : FileInfo) (r : Rule)
    (hne : r.conditions.file_extensions ≠ [])
    (hcm : r.conditions.matches m f = true) :
    (!r.conditions.file_extensions.isEmpty
      && (r.conditions.file_extensions.map foldCase).contains (foldCase f.file_extension))
      = true := by
  have hi : r.conditions.file_extensions.isEmpty = false := by
    cases hl : r.conditions.file_extensions with
    | nil => exact absurd hl hne
    | cons x xs => rfl
  have hext : (r.conditions.file_extensions.map foldCase).contains (foldCase f.file_extension)
      = true := by
    by_contra hcontra
    have hco : (r.conditions.file_extensions.map foldCase).contains (foldCase f.file_extension)
        = false := by simpa using hcontra
    have hc2 : (!r.conditions.file_extensions.isEmpty
        && !((r.conditions.file_extensions.map foldCase).contains (foldCase f.file_extension)))
        = true := by rw [hi, hco]; rfl
    have hfalse : r.conditions.matches m f = false := by
      unfold RuleConditions.matches
      by_cases h1 : (optTruthy r.conditions.path_pattern
          && !(m.wildcardMatch (r.conditions.path_pattern.getD "") (strOfParts f.path))) = true
      · rw [if_pos h1]
      · rw [if_neg h1, if_pos hc2]
    rw [hfalse] at hcm
    exact Bool.false_ne_true hcm
  rw [hi, hext]; rfl

/-- Claim C4 (amended): whenever every configured rule carries a nonempty
extension-list condition — as the built-in default rule set does — a first,
uncached `OptimizedRuleEngine.match_file` call returns exactly the baseline
`RuleEngine.match_file` result: same matched flag, same rule, same reason.
The amendment is forced because a rule without an extension condition is
indexed only in `rules_without_extension`, which the optimized loop never
consults when extension candidates exist (see the counterexample). -/
theorem optimizedEngine_agrees_on_extension_rule_sets (m : Matcher) (rules : List Rule)
    (f : FileInfo) (h : ∀ r ∈ rules, r.conditions.file_extensions ≠ []) :
    OptimizedRuleEngine.match_file m rules f = RuleEngine.match_file m rules f := by
  show OptimizedRuleEngine.optMatchLoop m f
      (if (OptimizedRuleEngine.extCandidates rules f).isEmpty
        then RuleEngine.enabledRules rules else OptimizedRuleEngine.extCandidates rules f)
    = RuleEngine.match_file m rules f
  by_cases hc : (OptimizedRuleEngine.extCandidates rules f).isEmpty = true
  · rw [if_pos hc, optMatchLoop_eq_matchLoop]
    unfold RuleEngine.match_file RuleEngine.enabledRules
    rw [List.filter_filter]
    simp only [Bool.and_self]
  · rw [if_neg hc, optMatchLoop_eq_matchLoop]
    unfold RuleEngine.match_file RuleEngine.enabledRules OptimizedRuleEngine.extCandidates
    rw [matchLoop_as_found, matchLoop_as_found]
    have hcomm :
        (rules.filter (fun r =>
            !r.conditions.file_extensions.isEmpty
              && (r.conditions.file_extensions.map foldCase).contains
                  (foldCase f.file_extension))).filter (fun r => r.enabled)
          = (rules.filter (fun r => r.enabled)).filter (fun r =>
              !r.conditions.file_extensions.isEmpty
                && (r.conditions.file_extensions.map foldCase).contains
                    (foldCase f.file_extension)) := by
      rw [List.filter_filter, List.filter_filter]
      exact List.filter_congr fun a _ => Bool.and_comm _ _
    rw [hcomm, find?_filter_of_imp]
    intro a ha hpred
    have hcm : a.conditions.matches m f = true := by
      have hp := hpred
      unfold Rule.matches at hp
      exact (Bool.and_eq_true_iff.mp hp).2
    exact matches_mem_extCandidates m f a (h a (List.mem_filter.mp ha).1) hcm

/-- Witness for C4 (amended): on the singleton extension rule set
`[ruleTmp]`, both engines classify `x.tmp` identically. -/
theorem optimizedEngine_agrees_on_extension_rule_sets_witness :
    (∀ r ∈ [ruleTmp], r.conditions.file_extensions ≠ []) ∧
    OptimizedRuleEngine.match_file trivMatcher [ruleTmp] tmpFile
      = RuleEngine.match_file trivMatcher [ruleTmp] tmpFile :=
  ⟨by decide,
   optimizedEngine_agrees_on_extension_rule_sets trivMatcher [ruleTmp] tmpFile (by decide)⟩

/-- Claim C4 counterexample: with the extension-less catch-all `ruleNoExt`
configured before `ruleTmp`, the baseline engine classifies `x.tmp` by the
earlier catch-all rule, but the optimized engine's extension index hides it
and returns the later `.tmp` rule, so a first, uncached call returns a
different matched rule than the baseline. -/
theorem optimizedEngine_diverges_counterexample :
    (OptimizedRuleEngine.match_file trivMatcher [ruleNoExt, ruleTmp] tmpFile).rule
        = some ruleTmp ∧
    (RuleEngine.match_file trivMatcher [ruleNoExt, ruleTmp] tmpFile).rule = some ruleNoExt ∧
    OptimizedRuleEngine.match_file trivMatcher [ruleNoExt, ruleTmp] tmpFile
      ≠ RuleEngine.match_file trivMatcher [ruleNoExt, ruleTmp] tmpFile := by decide

/-- Claim C1: for every existing path whose resolved (symlink-free) path is
a descendant of a protected entry — stated exactly as the code tests it, on
`resolve`-canonicalised paths — `is_safe_to_delete` returns false with a
reason starting with "Protected path"; when resolution factors through case
folding (as Windows canonicalisation of existing paths does), the rejection
also holds for every letter-case variant of the path, the comparison is
insensitive to the letter case of the protected root, and a trailing
backslash on any protected root leaves its parsed parts unchanged. -/
theorem security_rejects_protected_descendants
    (fs : FileSystem) (p w : List String) (prot : String)
    (hmem : prot ∈ SecurityLayer.HARDCODED_PROTECTED)
    (hex : fs.pexists p = true)
    (hunder : (fs.resolve (winParts prot)).isPrefixOf (fs.resolve (fs.realpath p)) = true)
    (hfoldR : ∀ a b, foldCaseParts a = foldCaseParts b → fs.resolve a = fs.resolve b)
    (hfoldRP : ∀ a b, foldCaseParts a = foldCaseParts b → fs.realpath a = fs.realpath b) :
    ((SecurityLayer.is_safe_to_delete fs p w).1 = false ∧
      ∃ found, (SecurityLayer.is_safe_to_delete fs p w).2 = "Protected path: " ++ found) ∧
    (∀ p', foldCaseParts p' = foldCaseParts p → fs.pexists p' = true →
      (SecurityLayer.is_safe_to_delete fs p' w).1 = false) ∧
    (∀ s s' : String, foldCaseParts (winParts s) = foldCaseParts (winParts s') →
      ∀ r, SecurityLayer.isPathUnder fs r (winParts s)
        = SecurityLayer.isPathUnder fs r (winParts s')) ∧
    SecurityLayer.HARDCODED_PROTECTED.map (fun s => winParts (s ++ "\\"))
      = SecurityLayer.HARDCODED_PROTECTED.map winParts := by
  have hpred : SecurityLayer.isPathUnder fs (fs.realpath p) (winParts prot) = true := hunder
  have hfind : (SecurityLayer.HARDCODED_PROTECTED.find?
      (fun pr => SecurityLayer.isPathUnder fs (fs.realpath p) (winParts pr))).isSome := by
    rw [List.find?_isSome]
    exact ⟨prot, hmem, hpred⟩
  obtain ⟨pr, hpr⟩ := Option.isSome_iff_exists.mp hfind
  refine ⟨?_, ?_, ?_, by decide⟩
  · simp only [SecurityLayer.is_safe_to_delete]
    rw [if_neg (by simp [hex]), hpr]
    exact ⟨rfl, ⟨pr, rfl⟩⟩
  · intro p' hfold hex'
    have hrp : fs.realpath p' = fs.realpath p := hfoldRP p' p hfold
    simp only [SecurityLayer.is_safe_to_delete]
    rw [if_neg (by simp [hex']), hrp, hpr]
  · intro s s' hss r
    unfold SecurityLayer.isPathUnder
    rw [hfoldR (winParts s) (winParts s') hss]

/-- Witness for C1: on a Windows-like oracle whose canonical spelling is the
case-folded one, the all-lower-case spelling `c:\windows\TEMP\junk.txt` of a
file under `C:\Windows` is rejected. -/
theorem security_rejects_protected_descendants_witness :
    "C:\\Windows" ∈ SecurityLayer.HARDCODED_PROTECTED ∧
    foldFS.pexists (winParts "c:\\windows\\TEMP\\junk.txt") = true ∧
    (foldFS.resolve (winParts "C:\\Windows")).isPrefixOf
        (foldFS.resolve (foldFS.realpath (winParts "c:\\windows\\TEMP\\junk.txt"))) = true ∧
    (SecurityLayer.is_safe_to_delete foldFS (winParts "c:\\windows\\TEMP\\junk.txt") []).1
      = false :=
  ⟨by decide, rfl, by decide,
   ((security_rejects_protected_descendants foldFS (winParts "c:\\windows\\TEMP\\junk.txt") []
      "C:\\Windows" (by decide) rfl (by decide)
      (fun a b h1 => h1) (fun a b h1 => h1)).1).1⟩

/-- A filesystem oracle on which `C:\Users\bob\innocent.txt` is a symlink
whose real path is `D:\Data\pagefile.sys`; every path exists and `resolve`
is the identity (all spellings already canonical). -/
def c3FS : FileSystem :=
  { pexists := fun _ => true,
    realpath := fun q =>
      if q = winParts "C:\\Users\\bob\\innocent.txt" then winParts "D:\\Data\\pagefile.sys"
      else q,
    resolve := fun q => q }

/-- Claim C3 counterexample: a symlink named `innocent.txt` resolving to
`pagefile.sys` passes `is_safe_to_delete` — even with `.sys` whitelisted —
although the resolved path's base name is on the critical-system-file list
and its extension is whitelisted: the base-name and extension checks decide
on the original path, not the resolved one. -/
theorem security_checks_use_original_name_counterexample :
    SecurityLayer.is_safe_to_delete c3FS (winParts "C:\\Users\\bob\\innocent.txt") []
      = (true, "OK") ∧
    SecurityLayer.is_safe_to_delete c3FS (winParts "C:\\Users\\bob\\innocent.txt") [".sys"]
      = (true, "OK") ∧
    foldCase (wname (c3FS.realpath (winParts "C:\\Users\\bob\\innocent.txt")))
        ∈ SecurityLayer.SYSTEM_FILES ∧
    foldCase (wsuffix (c3FS.realpath (winParts "C:\\Users\\bob\\innocent.txt"))) = ".sys" := by
  decide

/-- Claim C3 (amended): after resolution, only the protected-path check
reads the resolved path; the critical-system-file base-name check and the
whitelist-extension check decide on the name and extension of the original
path `p`. Hence the verdict depends only on the path's existence bit, the
protected-path outcomes on the resolved path, and the original path's name
and suffix. -/
theorem security_verdict_depends_on_original_name
    (fs fs' : FileSystem) (p p' : List String) (w : List String)
    (h1 : fs.pexists p = fs'.pexists p')
    (h2 : ∀ prot ∈ SecurityLayer.HARDCODED_PROTECTED,
      SecurityLayer.isPathUnder fs (fs.realpath p) (winParts prot)
        = SecurityLayer.isPathUnder fs' (fs'.realpath p') (winParts prot))
    (h3 : wname p = wname p')
    (h4 : wsuffix p = wsuffix p') :
    (SecurityLayer.is_safe_to_delete fs p w).1
      = (SecurityLayer.is_safe_to_delete fs' p' w).1 := by
  by_cases hex : fs.pexists p = true
  · have hex' : fs'.pexists p' = true := by rw [← h1]; exact hex
    have hfind : SecurityLayer.HARDCODED_PROTECTED.find?
        (fun prot => SecurityLayer.isPathUnder fs (fs.realpath p) (winParts prot))
        = SecurityLayer.HARDCODED_PROTECTED.find?
          (fun prot => SecurityLayer.isPathUnder fs' (fs'.realpath p') (winParts prot)) :=
      find?_congrOn _ _ _ h2
    have hne : ¬ (fs.pexists p = false) := by simp [hex]
    have hne' : ¬ (fs'.pexists p' = false) := by simp [hex']
    simp only [SecurityLayer.is_safe_to_delete]
    rw [if_neg hne, if_neg hne', hfind, h3, h4]
  · have hb : fs.pexists p = false := by simpa using hex
    have hb' : fs'.pexists p' = false := by rw [← h1]; exact hb
    simp only [SecurityLayer.is_safe_to_delete]
    rw [if_pos hb, if_pos hb']

/-- Witness for C3 (amended): two different non-protected paths with the
same name and suffix receive the same verdict. -/
theorem security_verdict_depends_on_original_name_witness :
    idFS.pexists (winParts "D:\\x\\note.txt") = idFS.pexists (winParts "E:\\y\\note.txt") ∧
    (∀ prot ∈ SecurityLayer.HARDCODED_PROTECTED,
      SecurityLayer.isPathUnder idFS (idFS.realpath (winParts "D:\\x\\note.txt")) (winParts prot)
        = SecurityLayer.isPathUnder idFS (idFS.realpath (winParts "E:\\y\\note.txt"))
            (winParts prot)) ∧
    wname (winParts "D:\\x\\note.txt") = wname (winParts "E:\\y\\note.txt") ∧
    wsuffix (winParts "D:\\x\\note.txt") = wsuffix (winParts "E:\\y\\note.txt") ∧
    (SecurityLayer.is_safe_to_delete idFS (winParts "D:\\x\\note.txt") [".pdf"]).1
      = (SecurityLayer.is_safe_to_delete idFS (winParts "E:\\y\\note.txt") [".pdf"]).1 :=
  ⟨rfl, by decide, by decide, by decide,
   security_verdict_depends_on_original_name idFS idFS
     (winParts "D:\\x\\note.txt") (winParts "E:\\y\\note.txt") [".pdf"]
     rfl (by decide) (by decide) (by decide)⟩

/-- A filesystem oracle on which every path exists except `D:\t\f3.tmp`
(file #3 of the five-file clean scenario). -/
def missingThirdFS : FileSystem :=
  { pexists := fun q => q ≠ winParts "D:\\t\\f3.tmp",
    realpath := fun q => q, resolve := fun q => q }

/-- The five-file list of the C7 scenario: 10-byte `.tmp` files, of which
file #3 does not exist on `missingThirdFS`. -/
def fiveFiles : List FileInfo :=
  [FileInfo.ofPath (winParts "D:\\t\\f1.tmp") 10 false 0,
   FileInfo.ofPath (winParts "D:\\t\\f2.tmp") 10 false 0,
   FileInfo.ofPath (winParts "D:\\t\\f3.tmp") 10 false 0,
   FileInfo.ofPath (winParts "D:\\t\\f4.tmp") 10 false 0,
   FileInfo.ofPath (winParts "D:\\t\\f5.tmp") 10 false 0]

/-- Claim C7 counterexample: cleaning five files of which file #3 does not
exist deletes the other four, but the errors list does not receive an entry
for file #3 — the failed existence check makes `is_safe_to_delete` return
false, which the cleaner counts under `skipped` and `continue`s, so
`errors` stays empty rather than containing exactly one entry. -/
theorem clean_missing_file_not_an_error :
    (CleanerExecutor.clean missingThirdFS (fun _ => true) false fiveFiles).files_deleted = 4 ∧
    (CleanerExecutor.clean missingThirdFS (fun _ => true) false fiveFiles).errors.length ≠ 1 := by
  decide

/-- Claim C7 (amended): in the five-file scenario with file #3 missing, the
result has `files_deleted = 4`, the missing file is counted as `skipped = 1`
(a failed safety check), the errors list is empty, and `success` stays
true. -/
theorem clean_missing_file_counted_skipped :
    CleanerExecutor.clean missingThirdFS (fun _ => true) false fiveFiles
      = { success := true, files_deleted := 4, total_size := 40, errors := [],
          duration := 0, skipped := 1 } := by decide
